import Mathlib

/-!
Shallow embedding of the crypto digest bot (src/main.py, src/app.py).

Conventions of the embedding:
* Python `datetime` values are modelled as `Int` timestamps. The code stores
  `pubtime.isoformat()` and sorts by that string; for the fixed-format
  timestamps the code produces, lexicographic order on the ISO strings agrees
  with chronological order, so the model keeps the timestamp itself as the
  sort key.
* A feedparser entry is `RawEntry`; `Option` models an absent attribute /
  dict key (`entry.get(k, default)` becomes `Option.getD`).
* `feedparser.parse url` either yields a `Feed` or raises; per-source results
  are modelled as `Except SourceError Feed`, one per configured URL.
* BeautifulSoup markup stripping inside `clean_html` is not modelled (the
  claims never depend on it); the 400-character truncation is.
* The OpenAI call in `generate_digest` is modelled by a `SummResult`
  parameter: `.ok content` is a successful API response whose message
  content is `content` (possibly `none`, as in Python), `.failed` is a
  raised exception. The model also returns how many summarization calls
  were made.
-/

/-- Python string slicing `s[:n]` (by code points). -/
def pytake (s : String) (n : Nat) : String :=
  String.mk (s.data.take n)

/-- Error raised while fetching/parsing one RSS source (caught at
src/main.py:119-121). -/
inductive SourceError
  | fetchError
  | parseError
deriving Repr, DecidableEq

/-- One feedparser entry: title, summary, link, published_parsed,
updated_parsed, each possibly absent. -/
structure RawEntry where
  title : Option String
  summary : Option String
  link : Option String
  published_parsed : Option Int
  updated_parsed : Option Int
deriving Repr, DecidableEq

/-- A parsed feed: the feed-level title (`feed.feed.get('title')`) and the
entry list. -/
structure Feed where
  feedTitle : Option String
  entries : List RawEntry
deriving Repr, DecidableEq

/-- The dict appended to `news_items` at src/main.py:107-113. -/
structure NewsItem where
  title : String
  summary : String
  link : String
  source : String
  published : Int
deriving Repr, DecidableEq

/-- `clean_html` (src/main.py:53-61): empty/absent input gives `''`;
otherwise the text is truncated to 400 characters. Markup stripping by
BeautifulSoup is not modelled. -/
def clean_html (html_text : Option String) : String :=
  match html_text with
  | none => ""
  | some s => if s = "" then "" else pytake s 400

/-- Timestamp resolution (src/main.py:94-100): `published_parsed` if
present, else `updated_parsed`, else the current time. -/
def resolveTime (now : Int) (e : RawEntry) : Int :=
  match e.published_parsed with
  | some t => t
  | none =>
    match e.updated_parsed with
    | some t => t
    | none => now

/-- The time filter (src/main.py:103): an entry is skipped when a threshold
is set and its resolved time is strictly before it. -/
def keepEntry (threshold : Option Int) (t : Int) : Bool :=
  match threshold with
  | none => true
  | some th => !(t < th)

/-- Normalization of one entry into the appended dict
(src/main.py:107-113). -/
def normalizeEntry (now : Int) (feedTitle : Option String) (e : RawEntry) :
    NewsItem :=
  { title := e.title.getD "Без заголовка"
    summary := clean_html e.summary
    link := e.link.getD ""
    source := feedTitle.getD "Unknown"
    published := resolveTime now e }

/-- Items contributed by one successfully parsed feed
(src/main.py:85-113): nothing for an empty feed, otherwise the first
`limit_per_feed` entries that pass the time filter, normalized. -/
def processFeed (now : Int) (threshold : Option Int) (limit : Nat)
    (f : Feed) : List NewsItem :=
  if f.entries = [] then []
  else
    ((f.entries.take limit).filter
        (fun e => keepEntry threshold (resolveTime now e))).map
      (normalizeEntry now f.feedTitle)

/-- The per-source loop of src/main.py:79-121: a source whose fetch/parse
raised contributes nothing and the loop continues. -/
def collectNews (now : Int) (threshold : Option Int) (limit : Nat) :
    List (Except SourceError Feed) → List NewsItem
  | [] => []
  | Except.error _ :: rest => collectNews now threshold limit rest
  | Except.ok f :: rest =>
    processFeed now threshold limit f ++ collectNews now threshold limit rest

/-- Insert an item into a list already sorted by `published` descending,
after every earlier item with a greater-or-equal key: this is the stable
descending sort `sorted(key=published, reverse=True)` of
src/main.py:124 (CPython's sort is stable, also under `reverse=True`). -/
def insertDesc (x : NewsItem) : List NewsItem → List NewsItem
  | [] => [x]
  | y :: ys =>
    if y.published ≤ x.published then x :: y :: ys else y :: insertDesc x ys

/-- Stable sort by `published` descending (src/main.py:124). -/
def sortDesc : List NewsItem → List NewsItem
  | [] => []
  | x :: xs => insertDesc x (sortDesc xs)

/-- The threshold of src/main.py:75: `hours = None` (and, by Python
truthiness, `hours = 0`) sets no threshold, otherwise `now - hours`. -/
def timeThreshold (now : Int) (hours : Option Nat) : Option Int :=
  match hours with
  | none => none
  | some h => if h = 0 then none else some (now - (h : Int))

/-- `get_recent_news` (src/main.py:63-124): the collected items of all
sources, sorted by `published` descending. -/
def get_recent_news (now : Int) (hours : Option Nat) (limit_per_feed : Nat)
    (feeds : List (Except SourceError Feed)) : List NewsItem :=
  sortDesc (collectNews now (timeThreshold now hours) limit_per_feed feeds)

/-- Outcome of the one OpenAI chat-completion attempt in `generate_digest`
(src/main.py:163-176): a response whose message content is `content`
(possibly `None`, as in Python), or a raised exception. -/
inductive SummResult
  | ok (content : Option String)
  | failed
deriving Repr, DecidableEq

/-- One block of `news_text` (src/main.py:134). -/
def item_block (it : NewsItem) : String :=
  "Заголовок: " ++ it.title ++ "\nИсточник: " ++ it.source ++
    "\nСсылка: " ++ it.link

/-- The items serialized into the prompt: `news_data[:20]`
(src/main.py:135). -/
def promptItems (news_data : List NewsItem) : List NewsItem :=
  news_data.take 20

/-- `news_text` (src/main.py:133-136). -/
def news_text (news_data : List NewsItem) : String :=
  String.intercalate "\n\n" ((promptItems news_data).map item_block)

/-- `generate_digest` (src/main.py:126-176). Returns the Python return
value (`None` is `none`) together with the number of summarization calls
made. Empty input returns immediately with zero calls; otherwise exactly
one call is made and an exception yields `None`. -/
def generate_digest (news_data : List NewsItem) (summ : SummResult) :
    Option String × Nat :=
  if news_data = [] then (none, 0)
  else
    match summ with
    | SummResult.ok content => (content, 1)
    | SummResult.failed => (none, 1)

/-- The three user-visible outcomes of one digest command:
the "no news" error text, a generated digest, or the fallback listing. -/
inductive DigestResult
  | noNews
  | digest (text : String)
  | fallback (text : String)
deriving Repr, DecidableEq

/-- The items enumerated by the `/digest` fallback: `news[:10]`
(src/main.py:229). -/
def fallback_items (news : List NewsItem) : List NewsItem :=
  news.take 10

/-- One enumerated fallback line of `/digest` (src/main.py:230-231). -/
def fallback_line (idx : Nat) (it : NewsItem) : String :=
  Nat.repr idx ++ ". <a href=\"" ++ it.link ++ "\">" ++ pytake it.title 80 ++
    "</a>\n" ++ "   <i>" ++ it.source ++ "</i>\n"

/-- The `enumerate(news[:10], 1)` loop of src/main.py:229-231. -/
def enumLines : Nat → List NewsItem → String
  | _, [] => ""
  | idx, it :: rest => fallback_line idx it ++ enumLines (idx + 1) rest

/-- `simple_digest` of `/digest` (src/main.py:228-231), built purely from
the local item list. -/
def simple_digest (news : List NewsItem) : String :=
  "📰 <b>Последние новости (" ++ Nat.repr news.length ++ " шт)</b>\n\n" ++
    enumLines 1 (fallback_items news)

/-- The branch structure of `cmd_digest` after news collection
(src/main.py:200-238): empty news gives the "no news" message; a truthy
digest text is delivered as the digest; a falsy one (`None` from a failed
or contentless call, or the empty string) falls back to `simple_digest`. -/
def cmd_digest_outcome (news : List NewsItem) (summ : SummResult) :
    DigestResult :=
  if news = [] then DigestResult.noNews
  else
    match (generate_digest news summ).1 with
    | some t =>
      if t = "" then DigestResult.fallback (simple_digest news)
      else DigestResult.digest t
    | none => DigestResult.fallback (simple_digest news)

/-- The platform message-size limit used by every handler
(src/main.py:220, 233, 268, 308). -/
def CHUNK_LIMIT : Nat := 4096

/-- The delivery segmentation of src/main.py:220-225 (likewise 233-238,
268-273, 308-311): a text of at most 4096 characters is sent whole;
a longer one is sent as the slices `text[i:i+4096]` for
`i in range(0, len(text), 4096)`. Texts are modelled as their character
lists. -/
def splitChunks (s : List Char) : List (List Char) :=
  if s.length ≤ CHUNK_LIMIT then [s]
  else s.take CHUNK_LIMIT :: splitChunks (s.drop CHUNK_LIMIT)
termination_by s.length
decreasing_by
  simp only [List.length_drop, CHUNK_LIMIT] at *
  omega

/-- One enumerated fallback line of `/digest12` (src/main.py:277). -/
def fallback_line12 (idx : Nat) (it : NewsItem) : String :=
  Nat.repr idx ++ ". " ++ pytake it.title 100 ++ "\n"

/-- The `enumerate(news[:10], 1)` loop of src/main.py:276-277. -/
def enumLines12 : Nat → List NewsItem → String
  | _, [] => ""
  | idx, it :: rest => fallback_line12 idx it ++ enumLines12 (idx + 1) rest

/-- `simple_digest` of `/digest12` (src/main.py:275-277). -/
def simple_digest12 (news : List NewsItem) : String :=
  "📰 <b>Новости за 12 часов (" ++ Nat.repr news.length ++ " шт)</b>\n\n" ++
    enumLines12 1 (fallback_items news)

/-- The `/digest12` fallback delivery (src/main.py:278): a single message
holding `simple_digest[:4096]` — truncation, not segmentation. -/
def deliver12_fallback (s : List Char) : List (List Char) :=
  [s.take CHUNK_LIMIT]

/-- Lexicographic comparison of character lists (code-point order),
used only to state the spec's secondary-key requirement. -/
def lexLe : List Char → List Char → Bool
  | [], _ => true
  | _ :: _, [] => false
  | a :: as, b :: bs => if a = b then lexLe as bs else decide (a < b)

/-- Modelled from the spec: "Sort deterministically — by published
timestamp descending when available, falling back to a stable secondary
key (title) so ties are reproducible across runs." A list satisfies this
when each adjacent pair is strictly descending on `published`, or tied on
`published` and non-descending on `title`. This is the spec-side ordering
to compare against the code's `sortDesc`. -/
def specSecondarySorted : List NewsItem → Bool
  | [] => true
  | [_] => true
  | x :: y :: rest =>
    (decide (y.published < x.published) ||
      (decide (y.published = x.published) && lexLe x.title.data y.title.data)) &&
    specSecondarySorted (y :: rest)

theorem mem_insertDesc (a x : NewsItem) (l : List NewsItem) :
    a ∈ insertDesc x l ↔ a = x ∨ a ∈ l := by
  induction l with
  | nil => simp [insertDesc]
  | cons y ys ih =>
    by_cases h : y.published ≤ x.published
    · simp [insertDesc, h]
    · simp [insertDesc, h, ih]
      tauto

theorem mem_sortDesc (a : NewsItem) (l : List NewsItem) :
    a ∈ sortDesc l ↔ a ∈ l := by
  induction l with
  | nil => simp [sortDesc]
  | cons x xs ih => simp [sortDesc, mem_insertDesc, ih]

theorem length_insertDesc (x : NewsItem) (l : List NewsItem) :
    (insertDesc x l).length = l.length + 1 := by
  induction l with
  | nil => simp [insertDesc]
  | cons y ys ih =>
    by_cases h : y.published ≤ x.published
    · simp [insertDesc, h]
    · simp [insertDesc, h, ih]

theorem length_sortDesc (l : List NewsItem) :
    (sortDesc l).length = l.length := by
  induction l with
  | nil => rfl
  | cons x xs ih => simp [sortDesc, length_insertDesc, ih]

theorem chain_head_bound (y : NewsItem) (ys : List NewsItem)
    (h : List.Chain' (fun a b => b.published ≤ a.published) (y :: ys)) :
    ∀ b ∈ ys, b.published ≤ y.published := by
  induction ys generalizing y with
  | nil => simp
  | cons w ws ih =>
    have hyw : w.published ≤ y.published := (List.chain'_cons.mp h).1
    have htail := (List.chain'_cons.mp h).2
    intro b hb
    rcases List.mem_cons.mp hb with rfl | hb'
    · exact hyw
    · exact le_trans (ih w htail b hb') hyw

theorem chain_insertDesc (x : NewsItem) (l : List NewsItem)
    (hl : List.Chain' (fun a b => b.published ≤ a.published) l) :
    List.Chain' (fun a b => b.published ≤ a.published) (insertDesc x l) := by
  induction l with
  | nil => simp [insertDesc]
  | cons y ys ih =>
    by_cases h : y.published ≤ x.published
    · simp only [insertDesc, if_pos h]
      exact List.chain'_cons.mpr ⟨h, hl⟩
    · simp only [insertDesc, if_neg h]
      have htail : List.Chain' (fun a b => b.published ≤ a.published) ys :=
        hl.tail
      have hrec := ih htail
      cases hys : insertDesc x ys with
      | nil => simp
      | cons z zs =>
        rw [hys] at hrec
        refine List.chain'_cons.mpr ⟨?_, hrec⟩
        have hz : z = x ∨ z ∈ ys :=
          (mem_insertDesc z x ys).mp (by simp [hys])
        rcases hz with rfl | hzys
        · omega
        · exact chain_head_bound y ys hl z hzys

theorem chain_sortDesc (l : List NewsItem) :
    List.Chain' (fun a b => b.published ≤ a.published) (sortDesc l) := by
  induction l with
  | nil => simp [sortDesc]
  | cons x xs ih => exact chain_insertDesc x (sortDesc xs) ih

theorem keep_of_mem_processFeed (now : Int) (th : Option Int) (limit : Nat)
    (f : Feed) (it : NewsItem) (h : it ∈ processFeed now th limit f) :
    keepEntry th it.published = true := by
  unfold processFeed at h
  split at h
  · simp at h
  · rcases List.mem_map.mp h with ⟨e, he, rfl⟩
    have hk := (List.mem_filter.mp he).2
    simpa [normalizeEntry] using hk

theorem keep_of_mem_collectNews (now : Int) (th : Option Int) (limit : Nat)
    (feeds : List (Except SourceError Feed)) (it : NewsItem)
    (h : it ∈ collectNews now th limit feeds) :
    keepEntry th it.published = true := by
  induction feeds with
  | nil => simp [collectNews] at h
  | cons hd rest ih =>
    cases hd with
    | error e =>
      rw [collectNews] at h
      exact ih h
    | ok f =>
      rw [collectNews] at h
      rcases List.mem_append.mp h with h' | h'
      · exact keep_of_mem_processFeed now th limit f it h'
      · exact ih h'

theorem length_processFeed_le (now : Int) (th : Option Int) (limit : Nat)
    (f : Feed) : (processFeed now th limit f).length ≤ limit := by
  unfold processFeed
  split
  · simp
  · rw [List.length_map]
    exact le_trans (List.length_filter_le _ _)
      (le_trans (List.length_take_le _ _) (le_refl _))

theorem length_collectNews_le (now : Int) (th : Option Int) (limit : Nat)
    (feeds : List (Except SourceError Feed)) :
    (collectNews now th limit feeds).length ≤ feeds.length * limit := by
  induction feeds with
  | nil => simp [collectNews]
  | cons hd rest ih =>
    cases hd with
    | error e =>
      rw [collectNews]
      exact le_trans ih (by rw [List.length_cons, Nat.succ_mul]; omega)
    | ok f =>
      rw [collectNews, List.length_append, List.length_cons, Nat.succ_mul]
      exact Nat.add_le_add (length_processFeed_le now th limit f) ih
        |>.trans (by omega)

theorem splitChunks_join (s : List Char) : (splitChunks s).flatten = s := by
  induction s using splitChunks.induct with
  | case1 s h =>
    rw [splitChunks, if_pos h]
    simp
  | case2 s h ih =>
    rw [splitChunks, if_neg h]
    simp [ih]

theorem splitChunks_le (s : List Char) :
    ∀ c ∈ splitChunks s, c.length ≤ CHUNK_LIMIT := by
  induction s using splitChunks.induct with
  | case1 s h =>
    intro c hc
    rw [splitChunks, if_pos h] at hc
    simp at hc
    exact hc ▸ h
  | case2 s h ih =>
    intro c hc
    rw [splitChunks, if_neg h] at hc
    rcases List.mem_cons.mp hc with rfl | hc'
    · simp
    · exact ih c hc'

theorem splitChunks_single (s : List Char) (h : s.length ≤ CHUNK_LIMIT) :
    splitChunks s = [s] := by
  rw [splitChunks, if_pos h]

theorem perm_insertDesc (x : NewsItem) (l : List NewsItem) :
    (insertDesc x l).Perm (x :: l) := by
  induction l with
  | nil => simp [insertDesc]
  | cons y ys ih =>
    by_cases h : y.published ≤ x.published
    · simp [insertDesc, h]
    · simp only [insertDesc, if_neg h]
      exact (ih.cons y).trans (List.Perm.swap x y ys)

theorem perm_sortDesc (l : List NewsItem) : (sortDesc l).Perm l := by
  induction l with
  | nil => simp [sortDesc]
  | cons x xs ih => exact (perm_insertDesc x (sortDesc xs)).trans (ih.cons x)

/-- C1 counterexample: an entry missing both its title and its link is not
dropped by `get_recent_news`; it is included with the default title
`'Без заголовка'` and the default link `''` (src/main.py:108,110). -/
theorem C1_counterexample :
    get_recent_news 0 none 10
        [Except.ok ⟨some "F", [⟨none, none, none, some 5, none⟩]⟩] ≠ [] ∧
    get_recent_news 0 none 10
        [Except.ok ⟨some "F", [⟨none, none, none, some 5, none⟩]⟩] =
      [{ title := "Без заголовка", summary := "", link := "",
         source := "F", published := 5 }] := by
  constructor <;> decide

/-- C1 (amended): every entry of a feed that is within the per-feed cap
and passes the time filter appears in the output of `get_recent_news`,
even when its title and link are both absent — it is then included with
the default title `'Без заголовка'` and the empty link, never dropped. -/
theorem C1_amended (now : Int) (hours : Option Nat) (limit : Nat)
    (fT : Option String) (entries : List RawEntry) (e : RawEntry)
    (he : e ∈ entries.take limit)
    (hkeep : keepEntry (timeThreshold now hours) (resolveTime now e) = true)
    (htitle : e.title = none) (hlink : e.link = none) :
    normalizeEntry now fT e ∈
      get_recent_news now hours limit [Except.ok ⟨fT, entries⟩] ∧
    (normalizeEntry now fT e).title = "Без заголовка" ∧
    (normalizeEntry now fT e).link = "" := by
  refine ⟨?_, ?_, ?_⟩
  · rw [get_recent_news, mem_sortDesc]
    have hne : entries ≠ [] := by
      intro hnil
      rw [hnil, List.take_nil] at he
      exact absurd he (List.not_mem_nil e)
    simp only [collectNews, List.append_nil]
    unfold processFeed
    rw [if_neg hne]
    exact List.mem_map_of_mem _ (List.mem_filter.mpr ⟨he, hkeep⟩)
  · simp [normalizeEntry, htitle]
  · simp [normalizeEntry, hlink]

/-- C1 witness: the amended statement at a concrete entry lacking both
title and link. -/
theorem C1_amended_witness :
    normalizeEntry 0 (some "F") ⟨none, none, none, some 5, none⟩ ∈
      get_recent_news 0 none 10
        [Except.ok ⟨some "F", [⟨none, none, none, some 5, none⟩]⟩] ∧
    (normalizeEntry 0 (some "F") ⟨none, none, none, some 5, none⟩).title =
      "Без заголовка" ∧
    (normalizeEntry 0 (some "F") ⟨none, none, none, some 5, none⟩).link =
      "" :=
  C1_amended 0 none 10 (some "F") [⟨none, none, none, some 5, none⟩]
    ⟨none, none, none, some 5, none⟩ (by decide) (by decide) rfl rfl

/-- C2 counterexample: with three sources of ten in-cap entries each,
`get_recent_news` returns 30 items — the merged list it returns is not
capped at 20; the 20-item cap exists only in `generate_digest`'s prompt
construction (src/main.py:135). -/
theorem C2_counterexample :
    20 < (get_recent_news 0 none 10
      (List.replicate 3 (Except.ok ⟨some "F",
        List.replicate 10 ⟨some "t", none, some "l", some 1, none⟩⟩))).length := by
  decide

/-- C2 (amended): the list returned by `get_recent_news` is bounded only
by (number of sources) × (per-feed cap); the 20-item total cap is applied
by `generate_digest` when serializing items into the prompt
(`news_data[:20]`, modelled by `promptItems`). -/
theorem C2_amended (now : Int) (hours : Option Nat) (limit : Nat)
    (feeds : List (Except SourceError Feed)) (news_data : List NewsItem) :
    (get_recent_news now hours limit feeds).length ≤ feeds.length * limit ∧
    (promptItems news_data).length ≤ 20 := by
  constructor
  · rw [get_recent_news, length_sortDesc]
    exact length_collectNews_le _ _ _ _
  · exact List.length_take_le _ _

/-- C3: with a nonzero time window of `h` hours, every item returned by
`get_recent_news` has a resolved timestamp at or after `now - h`; an
entry lacking both a publish and an update timestamp resolves to the
current time and passes the time filter, so it is never dropped for a
missing timestamp alone. -/
theorem C3_window (now : Int) (h limit : Nat)
    (feeds : List (Except SourceError Feed)) (hh : h ≠ 0) :
    (∀ it ∈ get_recent_news now (some h) limit feeds,
      now - (h : Int) ≤ it.published) ∧
    (∀ e : RawEntry, e.published_parsed = none → e.updated_parsed = none →
      resolveTime now e = now ∧
      keepEntry (timeThreshold now (some h)) (resolveTime now e) = true) := by
  constructor
  · intro it hit
    rw [get_recent_news, mem_sortDesc] at hit
    have hk := keep_of_mem_collectNews _ _ _ _ _ hit
    simp only [timeThreshold, if_neg hh, keepEntry,
      Bool.not_eq_true'] at hk
    simp only [decide_eq_false_iff_not, not_lt] at hk
    exact hk
  · intro e hp hu
    refine ⟨by simp [resolveTime, hp, hu], ?_⟩
    simp only [resolveTime, hp, hu, timeThreshold, if_neg hh, keepEntry]
    simp only [Bool.not_eq_true', decide_eq_false_iff_not, not_lt]
    omega

/-- C3 witness: the window property at a concrete aggregation. -/
theorem C3_window_witness :
    (0 : Int) - ((12 : Nat) : Int) ≤
      (NewsItem.mk "t" "" "l" "F" 5).published :=
  (C3_window 0 12 10
      [Except.ok ⟨some "F", [⟨some "t", none, some "l", some 5, none⟩]⟩]
      (by decide)).1
    ⟨"t", "", "l", "F", 5⟩ (by decide)

/-- C4: on an empty item set, `generate_digest` returns the empty-result
sentinel (`None`) immediately, with zero summarization calls made,
whatever the summarization backend would have replied. -/
theorem C4_empty_sentinel (summ : SummResult) :
    generate_digest [] summ = (none, 0) :=
  rfl

/-- C5: when the summarization call fails on a non-empty item list,
`cmd_digest` delivers the fallback listing built purely from the local
items; the listing is non-empty, and the items it enumerates
(`news[:10]`) all come from the input set. -/
theorem C5_fallback (news : List NewsItem) (summ : SummResult)
    (hne : news ≠ []) (hfail : summ = SummResult.failed) :
    cmd_digest_outcome news summ =
      DigestResult.fallback (simple_digest news) ∧
    simple_digest news ≠ "" ∧
    (∀ it ∈ fallback_items news, it ∈ news) := by
  refine ⟨?_, ?_, ?_⟩
  · subst hfail
    simp [cmd_digest_outcome, generate_digest, hne]
  · intro hstr
    have hlen := congrArg String.length hstr
    rw [simple_digest] at hlen
    simp only [String.length_append] at hlen
    have h1 : ("📰 <b>Последние новости (" : String).length = 24 := by
      decide
    have h2 : (" шт)</b>\n\n" : String).length = 10 := by decide
    have h3 : ("" : String).length = 0 := by decide
    omega
  · exact fun it hit => List.take_subset _ _ hit

/-- C5 witness: the failure path at a concrete one-item input. -/
theorem C5_fallback_witness :
    cmd_digest_outcome [⟨"t", "", "l", "F", 5⟩] SummResult.failed =
      DigestResult.fallback (simple_digest [⟨"t", "", "l", "F", 5⟩]) ∧
    simple_digest [⟨"t", "", "l", "F", 5⟩] ≠ "" :=
  ⟨(C5_fallback [⟨"t", "", "l", "F", 5⟩] SummResult.failed (by decide)
      rfl).1,
   (C5_fallback [⟨"t", "", "l", "F", 5⟩] SummResult.failed (by decide)
      rfl).2.1⟩

/-- C6 counterexample: the `/digest12` fallback delivery
(src/main.py:278) truncates to the first 4096 characters instead of
segmenting, so for a 4097-character text the concatenation of what it
delivers is not the original text. -/
theorem C6_counterexample :
    (deliver12_fallback (List.replicate 4097 'a')).flatten ≠
      List.replicate 4097 'a' := by
  intro h
  have hl := congrArg List.length h
  rw [deliver12_fallback] at hl
  simp only [List.flatten_cons, List.flatten_nil, List.append_nil,
    List.length_take, List.length_replicate, CHUNK_LIMIT] at hl
  omega

theorem length_pytake (s : String) (n : Nat) : (pytake s n).length ≤ n :=
  List.length_take_le _ _

theorem nat_repr_le_two : ∀ n, n < 100 → (Nat.repr n).length ≤ 2 := by
  decide

theorem length_fallback_line12 (idx : Nat) (it : NewsItem)
    (h : idx < 100) : (fallback_line12 idx it).length ≤ 105 := by
  simp only [fallback_line12, String.length_append]
  have h1 := nat_repr_le_two idx h
  have h2 : (". " : String).length = 2 := by decide
  have h3 := length_pytake it.title 100
  have h4 : ("\n" : String).length = 1 := by decide
  omega

theorem length_enumLines12 (l : List NewsItem) (idx : Nat)
    (h : idx + l.length ≤ 100) :
    (enumLines12 idx l).length ≤ l.length * 105 := by
  induction l generalizing idx with
  | nil => simp [enumLines12]
  | cons it rest ih =>
    rw [List.length_cons] at h
    simp only [enumLines12, String.length_append, List.length_cons]
    have h1 := length_fallback_line12 idx it (by omega)
    have h2 := ih (idx + 1) (by omega)
    rw [Nat.succ_mul]
    omega

theorem length_simple_digest12 (news : List NewsItem)
    (h : news.length < 100) :
    (simple_digest12 news).length ≤ CHUNK_LIMIT := by
  rw [simple_digest12]
  simp only [String.length_append]
  have h1 : ("📰 <b>Новости за 12 часов (" : String).length = 26 := by
    decide
  have h2 := nat_repr_le_two news.length h
  have h3 : (" шт)</b>\n\n" : String).length = 10 := by decide
  have h5 : (fallback_items news).length ≤ 10 := List.length_take_le _ _
  have h4 := length_enumLines12 (fallback_items news) 1 (by omega)
  rw [CHUNK_LIMIT]
  omega

/-- C6 (amended): the segmenter used for generated digests on all paths,
and for the `/digest` fallback, sends the text whole when it is within
the 4096-character limit and otherwise splits it into the slices
`text[i:i+4096]`; the chunks concatenate back to the original text
exactly, none exceeds 4096 characters, and a text of exactly 4096
characters yields exactly one chunk. The `/digest12` fallback instead
truncates to the first 4096 characters — but every listing that path can
build (a short header plus at most ten numbered 100-character title
lines) is shorter than 4096 characters, so the truncation there is the
identity and the text is delivered whole. -/
theorem C6_amended (s t : List Char) (news : List NewsItem)
    (ht : t.length ≤ CHUNK_LIMIT) (hnews : news.length < 100) :
    (splitChunks s).flatten = s ∧
    (∀ c ∈ splitChunks s, c.length ≤ CHUNK_LIMIT) ∧
    (s.length = CHUNK_LIMIT → splitChunks s = [s]) ∧
    deliver12_fallback t = [t] ∧
    (simple_digest12 news).length ≤ CHUNK_LIMIT ∧
    deliver12_fallback (simple_digest12 news).data =
      [(simple_digest12 news).data] := by
  refine ⟨splitChunks_join s, splitChunks_le s,
    fun h => splitChunks_single s (le_of_eq h), ?_,
    length_simple_digest12 news hnews, ?_⟩
  · rw [deliver12_fallback, List.take_of_length_le ht]
  · have hlen : (simple_digest12 news).data.length ≤ CHUNK_LIMIT :=
      length_simple_digest12 news hnews
    rw [deliver12_fallback, List.take_of_length_le hlen]

/-- C6 witness: the amended statement at concrete texts. -/
theorem C6_amended_witness :
    (splitChunks ['a']).flatten = ['a'] ∧
    deliver12_fallback ['a'] = [['a']] :=
  ⟨(C6_amended ['a'] ['a'] [] (by decide) (by decide)).1,
   (C6_amended ['a'] ['a'] [] (by decide) (by decide)).2.2.2.1⟩

/-- C7 counterexample: `get_recent_news` returns only the item list — a
source that fails is indistinguishable in the returned value from a
source that parsed to an empty feed, so the return carries no per-source
error record (errors go to the log only, src/main.py:119-121). -/
theorem C7_counterexample :
    get_recent_news 0 none 10 [Except.error SourceError.fetchError] =
      get_recent_news 0 none 10 [Except.ok ⟨none, []⟩] ∧
    get_recent_news 0 none 10 [Except.error SourceError.fetchError] =
      [] :=
  ⟨rfl, rfl⟩

/-- C7 (amended): a source whose fetch or parse fails contributes zero
items and never aborts the aggregation — the result is exactly the
aggregation of the remaining sources; no error record is part of the
returned value. -/
theorem C7_amended (now : Int) (hours : Option Nat) (limit : Nat)
    (e : SourceError) (feeds : List (Except SourceError Feed)) :
    get_recent_news now hours limit (Except.error e :: feeds) =
      get_recent_news now hours limit feeds :=
  rfl

/-- C8 counterexample: two items tied on `published` whose titles arrive
in descending order stay in arrival order (CPython's sort is stable), so
the output violates the spec's "title as secondary key" ordering. -/
theorem C8_counterexample :
    specSecondarySorted
      (get_recent_news 0 none 10
        [Except.ok ⟨some "S",
          [⟨some "b", none, none, some 5, none⟩,
           ⟨some "a", none, none, some 5, none⟩]⟩]) = false := by
  decide

/-- C8 (amended): the merged output of `get_recent_news` is sorted by
`published` descending (adjacent items non-increasing) and is a
permutation of the collected items; ties keep collection order (the sort
is stable), not title order. As a pure function of its input, re-running
it on identical input trivially reproduces the same ordering. -/
theorem C8_amended (now : Int) (hours : Option Nat) (limit : Nat)
    (feeds : List (Except SourceError Feed)) :
    List.Chain' (fun a b => b.published ≤ a.published)
      (get_recent_news now hours limit feeds) ∧
    (get_recent_news now hours limit feeds).Perm
      (collectNews now (timeThreshold now hours) limit feeds) :=
  ⟨chain_sortDesc _, perm_sortDesc _⟩

/-- C9: one digest request yields exactly one of the three
`DigestResult` forms: the "no news" outcome exactly when the aggregated
list is empty, otherwise a generated digest (non-empty text) or the
fallback listing; the three forms are pairwise distinct, so a
legitimately empty result is always distinguishable from a
summarization failure. -/
theorem C9_trichotomy (news : List NewsItem) (summ : SummResult) :
    (cmd_digest_outcome news summ = DigestResult.noNews ↔ news = []) ∧
    (news ≠ [] →
      (∃ t, t ≠ "" ∧
        cmd_digest_outcome news summ = DigestResult.digest t) ∨
      cmd_digest_outcome news summ =
        DigestResult.fallback (simple_digest news)) ∧
    (∀ t u : String,
      DigestResult.noNews ≠ DigestResult.digest t ∧
      DigestResult.noNews ≠ DigestResult.fallback t ∧
      DigestResult.digest t ≠ DigestResult.fallback u) := by
  refine ⟨⟨?_, ?_⟩, ?_, ?_⟩
  · intro hout
    by_contra hne
    rw [cmd_digest_outcome, if_neg hne] at hout
    rcases hcontent : (generate_digest news summ).1 with _ | t <;>
      rw [hcontent] at hout
    · simp at hout
    · by_cases ht : t = "" <;> simp [ht] at hout
  · intro hempty
    rw [cmd_digest_outcome, if_pos hempty]
  · intro hne
    rw [cmd_digest_outcome, if_neg hne]
    rcases hcontent : (generate_digest news summ).1 with _ | t
    · exact Or.inr rfl
    · by_cases ht : t = ""
      · exact Or.inr (by simp [ht])
      · exact Or.inl ⟨t, ht, by simp [ht]⟩
  · intro t u
    exact ⟨fun h => DigestResult.noConfusion h,
      fun h => DigestResult.noConfusion h,
      fun h => DigestResult.noConfusion h⟩

/-- C9 witness: the empty-input form at a concrete request. -/
theorem C9_trichotomy_witness :
    cmd_digest_outcome [] SummResult.failed = DigestResult.noNews :=
  (C9_trichotomy [] SummResult.failed).1.mpr rfl
